import Mathlib

/-!
Shallow embedding of the ffmeditor conversion core — the job registry and
state machine (`internal/jobs`), the HTTP handler's dispatch of conversions,
the ffmpeg argument construction / scale-filter building / progress-line
parsing (`internal/ffmpeg`), request validation (`internal/validator`) and
configuration loading (`internal/config`) — together with theorems checking
the specification's claims about it.

Modelling conventions:
* Go `float64` values are modelled as `ℚ` (every claim involves only exact
  arithmetic and comparisons).
* Go `time.Time` instants are modelled as `Nat` values supplied to each
  mutating operation (`time.Now()` becomes an explicit `now` argument).
* The job map `map[string]*Job` is modelled as an association list keyed by
  the job id: insertion conses a fresh binding, lookup takes the first match,
  an update rewrites the matching entry in place, and a mutation addressed to
  an absent id is a no-op, exactly as in the source.
* `uuid.New().String()` is modelled by passing the generated id explicitly.
-/

namespace Ffmeditor

/-- `JobStatus` is a string type in the source with five declared constants
(`pending`, `processing`, `completed`, `failed`, `canceled`); it is modelled
as the enumeration of those constants. -/
inductive JobStatus where
  | pending
  | processing
  | completed
  | failed
  | canceled
deriving DecidableEq, Repr

/-- The `Job` record (internal/jobs/manager.go). Both `Logs` and
`LogRingBuffer` are kept, as in the source, where `AddLog` assigns the ring
buffer back to `Logs` after each append. -/
structure Job where
  id : String
  fileID : String
  originalName : String
  outputFormat : String
  status : JobStatus
  progress : ℚ
  outTimeMs : ℚ
  outputFilename : String
  error : String
  createdAt : Nat
  startedAt : Option Nat
  completedAt : Option Nat
  logs : List String
  logRingBuffer : List String
  maxLogLines : Nat
deriving DecidableEq, Repr

/-- The manager's `jobs map[string]*Job`, as an association list. -/
abbrev Registry := List (String × Job)

/-- Rewrite the entry for `id` in place with `f`; entries with other keys are
untouched and an absent id makes the whole operation a no-op — the shape of
every `if job, exists := m.jobs[jobID]; exists { ... }` block in the source. -/
def updateJob : Registry → String → (Job → Job) → Registry
  | [], _, _ => []
  | (k, v) :: rest, id, f =>
      if k = id then (k, f v) :: updateJob rest id f
      else (k, v) :: updateJob rest id f

/-- `Manager.CreateJob`: a fresh job in status `pending` with progress 0,
empty logs and `MaxLogLines` hard-coded to the literal `200`, inserted into
the registry; both the new registry and the job are returned. -/
def createJob (reg : Registry) (id fileID originalName outputFormat : String)
    (now : Nat) : Registry × Job :=
  let job : Job :=
    { id := id, fileID := fileID, originalName := originalName,
      outputFormat := outputFormat,
      status := JobStatus.pending, progress := 0, outTimeMs := 0,
      outputFilename := "", error := "",
      createdAt := now, startedAt := none, completedAt := none,
      logs := [], logRingBuffer := [], maxLogLines := 200 }
  ((id, job) :: reg, job)

/-- `Manager.SetProgress`: unconditionally overwrite the stored progress
fraction and elapsed-time marker. -/
def setProgress (reg : Registry) (jobID : String) (progress outTimeMs : ℚ) :
    Registry :=
  updateJob reg jobID fun job =>
    { job with progress := progress, outTimeMs := outTimeMs }

/-- `Manager.SetStatus`: unconditionally overwrite the status with the given
value (no guard inspects the previous status); when the new status is
`completed`, `failed` or `canceled` the completion timestamp is stamped. -/
def setStatus (reg : Registry) (jobID : String) (status : JobStatus)
    (now : Nat) : Registry :=
  updateJob reg jobID fun job =>
    { job with
      status := status,
      completedAt :=
        if status = JobStatus.completed ∨ status = JobStatus.failed ∨
            status = JobStatus.canceled
        then some now else job.completedAt }

/-- `Manager.SetError`: record the message, force status `failed` and stamp
the completion timestamp — again without inspecting the previous status. -/
def setError (reg : Registry) (jobID : String) (errMsg : String) (now : Nat) :
    Registry :=
  updateJob reg jobID fun job =>
    { job with
      error := errMsg, status := JobStatus.failed,
      completedAt := some now }

/-- `Manager.SetCompleted`: force status `completed`, record the output file
name, set progress to exactly 1.0 and stamp completion. (The source also
fires registered status handlers asynchronously; that publication step does
not touch the job record.) -/
def setCompleted (reg : Registry) (jobID : String) (outputFilename : String)
    (now : Nat) : Registry :=
  updateJob reg jobID fun job =>
    { job with
      status := JobStatus.completed,
      outputFilename := outputFilename, progress := 1,
      completedAt := some now }

/-- The ring-buffer step inside `Manager.AddLog`: append the line, and if the
buffer now exceeds `maxLines`, drop the oldest entry (`buf[1:]`). -/
def ringAppend (maxLines : Nat) (buf : List String) (msg : String) :
    List String :=
  let rb := buf ++ [msg]
  if rb.length > maxLines then rb.drop 1 else rb

/-- `Manager.AddLog`: bounded append through `ringAppend`, then mirror the
ring buffer into `Logs`, as the source does. -/
def addLog (reg : Registry) (jobID : String) (logMsg : String) : Registry :=
  updateJob reg jobID fun job =>
    let rb := ringAppend job.maxLogLines job.logRingBuffer logMsg
    { job with logRingBuffer := rb, logs := rb }

/-- The pool-facing fields of `Manager`: the job map, the worker count and
the buffered dispatch channel (its capacity and current buffer contents).
The source additionally holds a `done` channel and a status→handler callback
table, neither of which any claim below touches. -/
structure Manager where
  jobs : Registry
  workers : Nat
  queueCapacity : Nat
  queued : List Job
deriving DecidableEq, Repr

/-- `NewManager(workers)`: the dispatch queue is
`make(chan *Job, workers*2)` — a buffered channel of capacity `workers*2`. -/
def newManager (workers : Nat) : Manager :=
  { jobs := [], workers := workers, queueCapacity := workers * 2,
    queued := [] }

/-- `Manager.QueueJob` performs `m.queue <- job`, a send on the buffered
channel: if a buffer slot is free the job is appended at the tail, otherwise
the send blocks the submitter (modelled as `none`); in neither case is the
job discarded. -/
def queueJob (m : Manager) (job : Job) : Option Manager :=
  if m.queued.length < m.queueCapacity then
    some { m with queued := m.queued ++ [job] }
  else
    none

/-- The observable dispatch steps of `Handler.Convert` (the HTTP entry point
that starts a conversion), in program order. `queueJobSubmit` stands for a
call to `Manager.QueueJob` (a send into the pool's channel);
`spawnPerformConvert` stands for `go h.performConvert(job, uf, &req)` — a
fresh goroutine running the conversion pipeline directly. -/
inductive ConvertEffect where
  | respondBadRequest
  | respondNotFound
  | createJob
  | queueJobSubmit
  | spawnPerformConvert
  | respondAccepted
deriving DecidableEq, Repr

/-- Transcription of `Handler.Convert`: parse the body, validate, look up the
uploaded file, create a job, then start the conversion in a fresh goroutine
and respond — it never calls `Manager.QueueJob`. -/
def handlerConvert (bodyParses validates fileFound : Bool) :
    List ConvertEffect :=
  if !bodyParses then [ConvertEffect.respondBadRequest]
  else if !validates then [ConvertEffect.respondBadRequest]
  else if !fileFound then [ConvertEffect.respondNotFound]
  else [ConvertEffect.createJob, ConvertEffect.spawnPerformConvert,
        ConvertEffect.respondAccepted]

/-- `strings.ToLower` on one character, restricted to ASCII — the only
alphabet the program ever lowercases (format names and output paths). `65`,
`90` and `32` are the codes of `A`, `Z` and the case distance. -/
def toLowerChar (c : Char) : Char :=
  if 65 ≤ c.toNat ∧ c.toNat ≤ 90 then Char.ofNat (c.toNat + 32) else c

/-- `strings.ToLower`, character by character. -/
def strToLower (s : String) : String := String.mk (s.data.map toLowerChar)

/-- `strings.HasPrefix` on character lists (structural, so proofs can
evaluate it). -/
def isPrefixList : List Char → List Char → Bool
  | [], _ => true
  | _ :: _, [] => false
  | a :: as, b :: bs => a == b && isPrefixList as bs

/-- `strings.HasSuffix` on character lists. -/
def isSuffixList (post s : List Char) : Bool :=
  isPrefixList post.reverse s.reverse

/-- Split a character list at `.` separators — the split `strconv.ParseFloat`
needs to read a decimal literal. Splitting the empty list yields one empty
group, as `strings.Split` does. -/
def splitOnDot : List Char → List (List Char)
  | [] => [[]]
  | c :: rest =>
    if c == '.' then [] :: splitOnDot rest
    else
      match splitOnDot rest with
      | [] => [[c]]
      | g :: gs => (c :: g) :: gs

/-- `ffmpeg.ConvertOptions` (internal/ffmpeg). Pointer-to-scalar fields are
`Option`s; `float64` fields are `ℚ`. -/
structure ConvertOptions where
  inputPath : String
  outputPath : String
  ffmpegPath : String
  ffprobePath : String
  videoCodec : Option String
  audioCodec : Option String
  videoBitrate : Option String
  audioBitrate : Option String
  crf : Option Int
  preset : Option String
  fps : Option Int
  removeAudio : Bool
  removeVideo : Bool
  trimStart : Option ℚ
  trimDuration : Option ℚ
  resizeWidth : Option Int
  resizeHeight : Option Int
  keepAspect : Bool
  fitMode : Option String
  fastStart : Bool
  stripMetadata : Bool
  presetMode : String
deriving DecidableEq, Repr

/-- `getPreset`: the explicit preset if present, else the preset derived from
the global policy (`low_cpu → veryfast`, `balanced → fast`,
`quality → slow`, anything else → `fast`). -/
def getPreset (opts : ConvertOptions) : String :=
  match opts.preset with
  | some p => p
  | none =>
    if opts.presetMode = "low_cpu" then "veryfast"
    else if opts.presetMode = "balanced" then "fast"
    else if opts.presetMode = "quality" then "slow"
    else "fast"

/-- `buildScaleFilter`, transcribed branch for branch. Missing dimensions
default to `-1`; `%d` formatting of a Go `int` is `toString` of the `Int`.
Note the `cover` branch (annotated `// Crop to fit` in the source) emits a
scale factor `min(1, min(w/iw, h/ih))` — which never upscales and fits the
image inside the box — followed by a `pad` (letterbox), not a `crop`. -/
def buildScaleFilter (opts : ConvertOptions) : String :=
  if opts.resizeWidth = none ∧ opts.resizeHeight = none then ""
  else
    let w : Int := opts.resizeWidth.getD (-1)
    let h : Int := opts.resizeHeight.getD (-1)
    if !opts.keepAspect then s!"scale={w}:{h}"
    else if opts.fitMode = some "cover" ∧ 0 < w ∧ 0 < h then
      s!"scale=iw*min(1\\,min({w}/iw\\,{h}/ih)):ih*min(1\\,min({w}/iw\\,{h}/ih)),pad={w}:{h}:(ow-iw)/2:(oh-ih)/2"
    else if 0 < w ∧ 0 < h then
      s!"scale=min({w}\\,iw*{h}/ih):min({h}\\,ih*{w}/iw),pad={w}:{h}:(ow-iw)/2:(oh-ih)/2"
    else if 0 < w then s!"scale={w}:-1"
    else if 0 < h then s!"scale=-1:{h}"
    else ""

/-- `fmt.Sprintf("%.2f", x)` on a `float64`, modelled on `ℚ`: fixed two
fractional digits. (Rounding-mode differences at exact half-hundredths are
immaterial to every claim below, which never inspects trim formatting.) -/
def fmtF2 (q : ℚ) : String :=
  let c : Int := round (q * 100)
  let a : Nat := c.natAbs
  (if c < 0 then "-" else "") ++ toString (a / 100) ++ "." ++
    (if a % 100 < 10 then "0" else "") ++ toString (a % 100)

/-- The fixed argument prefix of `ffmpeg.Convert`: input path, progress
streaming on stdout, warning-level verbosity. -/
def baseArgs (opts : ConvertOptions) : List String :=
  ["-i", opts.inputPath, "-progress", "pipe:1", "-v", "warning"]

/-- Trim arguments: `-ss` / `-t`, each only when present. -/
def trimArgs (opts : ConvertOptions) : List String :=
  if opts.trimStart ≠ none ∨ opts.trimDuration ≠ none then
    (match opts.trimStart with
     | some t => ["-ss", fmtF2 t]
     | none => []) ++
    (match opts.trimDuration with
     | some d => ["-t", fmtF2 d]
     | none => [])
  else []

/-- The preset pair: emitted only when the chosen video codec is one of the
software encoders `libx264` / `libx265` that honor it. -/
def presetArgs (opts : ConvertOptions) : List String :=
  if opts.videoCodec = some "libx264" ∨ opts.videoCodec = some "libx265" then
    ["-preset", getPreset opts]
  else []

/-- The video section of the argument list: `-vn` alone when video is
dropped; otherwise codec, preset, CRF, bitrate, FPS and scale filter in the
source's append order, each under its own gate. -/
def videoArgs (opts : ConvertOptions) : List String :=
  if opts.removeVideo then ["-vn"]
  else
    (match opts.videoCodec with
     | some c => ["-c:v", c]
     | none => []) ++
    presetArgs opts ++
    (match opts.crf with
     | some c => ["-crf", toString c]
     | none => []) ++
    (match opts.videoBitrate with
     | some b => ["-b:v", b]
     | none => []) ++
    (match opts.fps with
     | some f => ["-r", toString f]
     | none => []) ++
    (if opts.resizeWidth ≠ none ∨ opts.resizeHeight ≠ none then
      ["-vf", buildScaleFilter opts]
     else [])

/-- The audio section: `-an` alone when audio is dropped; otherwise codec and
bitrate, each only when present. -/
def audioArgs (opts : ConvertOptions) : List String :=
  if opts.removeAudio then ["-an"]
  else
    (match opts.audioCodec with
     | some c => ["-c:a", c]
     | none => []) ++
    (match opts.audioBitrate with
     | some b => ["-b:a", b]
     | none => [])

/-- Metadata stripping flag. -/
def metadataArgs (opts : ConvertOptions) : List String :=
  if opts.stripMetadata then ["-map_metadata", "-1"] else []

/-- Faststart flag, only when requested and the lowercased output path ends
in `.mp4`. -/
def fastStartArgs (opts : ConvertOptions) : List String :=
  if opts.fastStart && isSuffixList ".mp4".data (strToLower opts.outputPath).data then
    ["-movflags", "+faststart"]
  else []

/-- The complete argument list built by `ffmpeg.Convert` before launching the
subprocess: the source appends the sections onto `args` in exactly this
order, ending with overwrite (`-y`) and the output path. -/
def buildArgs (opts : ConvertOptions) : List String :=
  baseArgs opts ++ trimArgs opts ++ videoArgs opts ++ audioArgs opts ++
    metadataArgs opts ++ fastStartArgs opts ++ ["-y", opts.outputPath]

/-- Digit run to number: `none` on an empty run or a non-digit character
(`strconv.ParseFloat` rejects such input). `48` is the code of the zero
digit. -/
def parseDigits (cs : List Char) : Option Nat :=
  if cs.isEmpty then none
  else
    cs.foldl (fun acc c =>
      match acc with
      | some n => if c.isDigit then some (n * 10 + (c.toNat - 48)) else none
      | none => none) (some 0)

/-- `strconv.ParseFloat` restricted to the plain decimal grammar (optional
sign, digit run, optional fractional digit run) — the format of the values
ffmpeg writes after `out_time_ms=`. -/
def parseOutTimeVal (cs : List Char) : Option ℚ :=
  let neg := isPrefixList ['-'] cs
  let body := if neg then cs.drop 1 else cs
  let q : Option ℚ :=
    match splitOnDot body with
    | [ip] => (parseDigits ip).map (fun n => (n : ℚ))
    | [ip, fp] =>
      match parseDigits ip, parseDigits fp with
      | some n, some f => some ((n : ℚ) + (f : ℚ) / ((10 : ℚ) ^ fp.length))
      | _, _ => none
    | _ => none
  q.map (fun x => if neg then -x else x)

/-- One iteration of the progress-scanning loop in `ffmpeg.Convert`: a line
produces an event only when it carries the `out_time_ms=` marker, its value
parses, and a total duration is known and strictly positive; the event is
`(outTimeMs / 1000 / total, 1.0, outTimeMs)`. The marker prefix has length
12, so `strings.TrimPrefix` is a drop of 12 characters. -/
def processProgressLine (totalDuration : Option ℚ) (line : String) :
    Option (ℚ × ℚ × ℚ) :=
  if isPrefixList "out_time_ms=".data line.data then
    match parseOutTimeVal (line.data.drop 12) with
    | some outTimeMs =>
      match totalDuration with
      | some total =>
        if 0 < total then some (outTimeMs / 1000 / total, 1, outTimeMs)
        else none
      | none => none
    | none => none
  else none

/-- All events the scanning loop delivers to the progress sink for a given
sequence of stdout lines, in order. -/
def progressEvents (totalDuration : Option ℚ) (lines : List String) :
    List (ℚ × ℚ × ℚ) :=
  lines.filterMap (processProgressLine totalDuration)

/-- `validator.AllowedOutputFormats`. -/
def allowedOutputFormats : List String :=
  ["mp4", "mkv", "mov", "webm", "mp3", "aac", "wav", "flac", "ogg", "m4a"]

/-- `validator.AllowedVideoCodecs`. -/
def allowedVideoCodecs : List String :=
  ["copy", "libx264", "libx265", "libvpx-vp9"]

/-- `validator.AllowedAudioCodecs`. -/
def allowedAudioCodecs : List String :=
  ["copy", "aac", "libmp3lame", "libopus", "flac"]

/-- `validator.AllowedPresets`. -/
def allowedPresets : List String :=
  ["ultrafast", "superfast", "veryfast", "faster", "fast", "medium", "slow",
   "slower", "veryslow"]

/-- `validator.AllowedFitModes`. -/
def allowedFitModes : List String := ["contain", "cover"]

/-- `validator.ConvertRequest`. -/
structure ConvertRequest where
  fileID : String
  outputFormat : String
  videoCodec : Option String
  audioCodec : Option String
  videoBitrate : Option String
  audioBitrate : Option String
  crf : Option Int
  preset : Option String
  fps : Option Int
  removeAudio : Bool
  removeVideo : Bool
  trimStart : Option ℚ
  trimDuration : Option ℚ
  resizeWidth : Option Int
  resizeHeight : Option Int
  keepAspect : Bool
  fitMode : Option String
  fastStart : Bool
  stripMetadata : Bool
deriving DecidableEq, Repr

/-- `ConvertRequest.Validate`, transcribed check for check in source order; a
Go map-membership test is list membership, and a `p != nil && bad(*p)` guard
is `Option.any`. -/
def validate (r : ConvertRequest) : Option String :=
  if r.fileID = "" then some "file_id is required"
  else if r.outputFormat = "" then some "output_format is required"
  else if !decide (strToLower r.outputFormat ∈ allowedOutputFormats) then
    some ("output_format not allowed: " ++ r.outputFormat)
  else if r.videoCodec.any (fun c => !decide (c ∈ allowedVideoCodecs)) then
    some ("video_codec not allowed: " ++ r.videoCodec.getD "")
  else if r.audioCodec.any (fun c => !decide (c ∈ allowedAudioCodecs)) then
    some ("audio_codec not allowed: " ++ r.audioCodec.getD "")
  else if r.crf.any (fun c => decide (c < 18) || decide (35 < c)) then
    some "crf must be between 18 and 35"
  else if r.preset.any (fun p => !decide (p ∈ allowedPresets)) then
    some ("preset not allowed: " ++ r.preset.getD "")
  else if r.fps.any (fun f => decide (f < 1) || decide (60 < f)) then
    some "fps must be between 1 and 60"
  else if r.trimStart.any (fun t => decide (t < 0)) then
    some "trim_start cannot be negative"
  else if r.trimDuration.any (fun d => decide (d < 0)) then
    some "trim_duration cannot be negative"
  else if r.resizeWidth.any (fun w => decide (w < 1)) then
    some "resize_width must be >= 1"
  else if r.resizeHeight.any (fun h => decide (h < 1)) then
    some "resize_height must be >= 1"
  else if r.fitMode.any (fun m => !decide (m ∈ allowedFitModes)) then
    some ("fit_mode not allowed: " ++ r.fitMode.getD "")
  else none

/-- `config.getEnv`: environment lookup with a default. -/
def getEnv (env : String → Option String) (key defaultVal : String) :
    String :=
  match env key with
  | some v => v
  | none => defaultVal

/-- `config.getEnvInt`: `strconv.Atoi` is modelled by `String.toInt?`; any
parse failure falls back to the default. -/
def getEnvInt (env : String → Option String) (key : String)
    (defaultVal : Int) : Int :=
  match env key with
  | some v =>
    match v.toInt? with
    | some n => n
    | none => defaultVal
  | none => defaultVal

/-- `config.Config`. -/
structure Config where
  port : String
  workers : Int
  maxUploadMB : Int
  presetMode : String
  ffmpegPath : String
  ffprobePath : String
  uploadDir : String
  outputDir : String
  logRingBufferSize : Int
deriving DecidableEq, Repr

/-- `config.Load`, with the process environment passed explicitly and the
directory-creation side effect omitted. `LOG_RING_BUFFER_SIZE` is read into
`logRingBufferSize` here and consulted nowhere else in the program. -/
def load (env : String → Option String) : Config :=
  { port := getEnv env "PORT" "8080",
    workers := getEnvInt env "WORKERS" 1,
    maxUploadMB := getEnvInt env "MAX_UPLOAD_MB" 500,
    presetMode := getEnv env "PRESET_MODE" "balanced",
    ffmpegPath := getEnv env "FFMPEG_PATH" "ffmpeg",
    ffprobePath := getEnv env "FFPROBE_PATH" "ffprobe",
    uploadDir := "uploads",
    outputDir := "outputs",
    logRingBufferSize := getEnvInt env "LOG_RING_BUFFER_SIZE" 200 }

/-! Concrete inputs used by counterexamples and witnesses. -/

/-- A registry holding one freshly created job `job-1`. -/
def reg0 : Registry := (createJob [] "job-1" "file-1" "clip.mp4" "mp4" 0).1

/-- The job stored in `reg0`. -/
def job0 : Job := (createJob [] "job-1" "file-1" "clip.mp4" "mp4" 0).2

/-- `reg0` after `job-1` reached the terminal status `completed`. -/
def c1Terminal : Registry := setStatus reg0 "job-1" JobStatus.completed 1

/-- `c1Terminal` after a further `SetStatus` back to `pending`. -/
def c1Resurrected : Registry := setStatus c1Terminal "job-1" JobStatus.pending 2

/-- `reg0` after `job-1` entered `processing`. -/
def c2Processing : Registry := setStatus reg0 "job-1" JobStatus.processing 1

/-- `c2Processing` after a progress report of 1/2. -/
def c2HalfDone : Registry := setProgress c2Processing "job-1" (1/2) 500

/-- `c2HalfDone` after a later, smaller progress report of 1/4. -/
def c2WentBack : Registry := setProgress c2HalfDone "job-1" (1/4) 250

/-- A one-worker manager whose two-slot queue is already full. -/
def mFull : Manager :=
  { jobs := [], workers := 1, queueCapacity := 2, queued := [job0, job0] }

/-- A one-worker manager with an empty queue. -/
def mFree : Manager := newManager 1

/-- `mFree` after one successful `QueueJob`. -/
def mAfter : Manager := { mFree with queued := [job0] }

/-- Options with every optional field absent and every flag off. -/
def optsBase : ConvertOptions :=
  { inputPath := "in.mp4", outputPath := "out.mp4",
    ffmpegPath := "ffmpeg", ffprobePath := "ffprobe",
    videoCodec := none, audioCodec := none,
    videoBitrate := none, audioBitrate := none,
    crf := none, preset := none, fps := none,
    removeAudio := false, removeVideo := false,
    trimStart := none, trimDuration := none,
    resizeWidth := none, resizeHeight := none,
    keepAspect := false, fitMode := none,
    fastStart := false, stripMetadata := false,
    presetMode := "balanced" }

/-- Aspect preserved, fit mode `cover`, box 1280×720 — the configuration the
spec's resize example uses. -/
def c4CoverOpts : ConvertOptions :=
  { optsBase with
    keepAspect := true, fitMode := some "cover",
    resizeWidth := some 1280, resizeHeight := some 720 }

/-- Options dropping video while naming the pass-through codec. -/
def c5Opts : ConvertOptions :=
  { optsBase with removeVideo := true, videoCodec := some "copy" }

/-- No explicit preset, policy `low_cpu`. -/
def c7LowCpu : ConvertOptions := { optsBase with presetMode := "low_cpu" }

/-- No explicit preset, policy `quality`. -/
def c7Quality : ConvertOptions := { optsBase with presetMode := "quality" }

/-- No explicit preset, unknown policy. -/
def c7Unknown : ConvertOptions := { optsBase with presetMode := "turbo" }

/-- A request whose CRF 40 is out of range and whose other fields are
valid. -/
def c10BadCrf : ConvertRequest :=
  { fileID := "f1", outputFormat := "mp4",
    videoCodec := none, audioCodec := none,
    videoBitrate := none, audioBitrate := none,
    crf := some 40, preset := none, fps := none,
    removeAudio := false, removeVideo := false,
    trimStart := none, trimDuration := none,
    resizeWidth := none, resizeHeight := none,
    keepAspect := false, fitMode := none,
    fastStart := false, stripMetadata := false }

/-- A request whose FPS 0 is out of range and whose other fields are
valid. -/
def c10BadFps : ConvertRequest := { c10BadCrf with crf := none, fps := some 0 }

/-- A request whose present optional fields are all within range. -/
def c10Good : ConvertRequest :=
  { c10BadCrf with
    crf := some 23, fps := some 30,
    videoCodec := some "libx264", fitMode := some "contain" }

/-! Helper lemmas shared by the claim theorems. -/

/-- Looking up the updated id sees exactly the image of the old binding under
the update function. -/
theorem lookup_updateJob (reg : Registry) (id : String) (f : Job → Job) :
    (updateJob reg id f).lookup id = (reg.lookup id).map f := by
  induction reg with
  | nil => rfl
  | cons p rest ih =>
    obtain ⟨k, v⟩ := p
    by_cases h : k = id
    · subst h
      simp [updateJob, List.lookup]
    · have hb : (id == k) = false := by
        simp only [beq_eq_false_iff_ne, ne_eq]
        exact fun e => h e.symm
      simp [updateJob, List.lookup, h, hb, ih]

/-! Theorems for the claims. -/

/-- C1 (counterexample): after `job-1` has reached the terminal status
`completed`, a further `SetStatus` moves it back to `pending` — a registry
operation resurrects a non-terminal status from a terminal one, so the
claimed invariant fails on the code. -/
theorem setStatus_leaves_terminal_cex :
    ((c1Terminal.lookup "job-1").map Job.status = some JobStatus.completed) ∧
    ((c1Resurrected.lookup "job-1").map Job.status = some JobStatus.pending) := by
  constructor <;> decide

/-- C1 (amended): `SetProgress` and `AddLog` never change a job's status, but
`SetStatus` and `SetError` write their target status unconditionally —
`SetStatus` can move a job out of a terminal status (and into `processing`
from any status, not only `pending`), and `SetError` forces `failed` even
from `completed` or `canceled`. -/
theorem registry_status_setters_unconditional (reg : Registry) (id : String)
    (now : Nat) :
    (∀ p t, ((setProgress reg id p t).lookup id).map Job.status
        = (reg.lookup id).map Job.status) ∧
    (∀ msg, ((addLog reg id msg).lookup id).map Job.status
        = (reg.lookup id).map Job.status) ∧
    (∀ s j, reg.lookup id = some j →
        ((setStatus reg id s now).lookup id).map Job.status = some s) ∧
    (∀ msg j, reg.lookup id = some j →
        ((setError reg id msg now).lookup id).map Job.status
          = some JobStatus.failed) := by
  refine ⟨?_, ?_, ?_, ?_⟩
  · intro p t
    cases hL : reg.lookup id <;>
      simp [setProgress, lookup_updateJob, hL]
  · intro msg
    cases hL : reg.lookup id <;>
      simp [addLog, lookup_updateJob, hL]
  · intro s j hL
    simp [setStatus, lookup_updateJob, hL]
  · intro msg j hL
    simp [setError, lookup_updateJob, hL]

/-- C1 (witness): the amended theorem applied to the concrete registry
`reg0`, whose job `job-1` is present. -/
theorem registry_status_setters_unconditional_witness :
    (((setStatus reg0 "job-1" JobStatus.processing 5).lookup "job-1").map
        Job.status = some JobStatus.processing) ∧
    (((setError reg0 "job-1" "boom" 5).lookup "job-1").map Job.status
        = some JobStatus.failed) :=
  ⟨(registry_status_setters_unconditional reg0 "job-1" 5).2.2.1
      JobStatus.processing job0 (by decide),
   (registry_status_setters_unconditional reg0 "job-1" 5).2.2.2
      "boom" job0 (by decide)⟩

/-- C2 (counterexample): while `job-1` is `processing`, two successive
`SetProgress` calls record 1/2 and then the smaller 1/4 — the registry does
not make progress monotonically non-decreasing. -/
theorem setProgress_not_monotone_cex :
    ((c2WentBack.lookup "job-1").map Job.status = some JobStatus.processing) ∧
    ((c2HalfDone.lookup "job-1").map Job.progress = some (1/2)) ∧
    ((c2WentBack.lookup "job-1").map Job.progress = some (1/4)) ∧
    ((1 : ℚ)/4 < 1/2) := by
  refine ⟨by decide, by rfl, by rfl, by norm_num⟩

/-- C2 (amended): the registry does not enforce monotonicity — `SetProgress`
records whatever fraction it is given, which may be smaller than the previous
one; `SetCompleted` does set status `completed` with progress exactly 1.0,
but `SetStatus` never touches progress, so a job moved to `completed` via
`SetStatus` keeps its old fraction. -/
theorem registry_progress_writers (reg : Registry) (id : String) (now : Nat) :
    (∀ p t j, reg.lookup id = some j →
        ((setProgress reg id p t).lookup id).map Job.progress = some p) ∧
    (∀ out j, reg.lookup id = some j →
        ((setCompleted reg id out now).lookup id).map
            (fun x => (x.status, x.progress))
          = some (JobStatus.completed, 1)) ∧
    (∀ s, ((setStatus reg id s now).lookup id).map Job.progress
        = (reg.lookup id).map Job.progress) := by
  refine ⟨?_, ?_, ?_⟩
  · intro p t j hL
    simp [setProgress, lookup_updateJob, hL]
  · intro out j hL
    simp [setCompleted, lookup_updateJob, hL]
  · intro s
    cases hL : reg.lookup id <;>
      simp [setStatus, lookup_updateJob, hL]

/-- C2 (witness): the amended theorem applied to the concrete registry
`reg0`. -/
theorem registry_progress_writers_witness :
    (((setProgress reg0 "job-1" (3/4) 750).lookup "job-1").map Job.progress
        = some (3/4)) ∧
    (((setCompleted reg0 "job-1" "out.mp4" 9).lookup "job-1").map
        (fun x => (x.status, x.progress))
      = some (JobStatus.completed, 1)) :=
  ⟨(registry_progress_writers reg0 "job-1" 9).1 (3/4) 750 job0 (by decide),
   (registry_progress_writers reg0 "job-1" 9).2.1 "out.mp4" job0 (by decide)⟩

/-- C3 (counterexample): on the successful path `Handler.Convert` creates the
job and spawns `performConvert` in a fresh goroutine, but never submits the
job to the pool's queue — so created jobs are not executed by pool workers
and the worker bound does not apply to conversions. -/
theorem handlerConvert_bypasses_pool_cex :
    ConvertEffect.createJob ∈ handlerConvert true true true ∧
    ConvertEffect.spawnPerformConvert ∈ handlerConvert true true true ∧
    ConvertEffect.queueJobSubmit ∉ handlerConvert true true true := by
  decide

/-- C3 (amended): the pool's queue does have capacity `workers*2`, and
`QueueJob` blocks the submitter without dropping the job when the queue is
full (appending it at the tail otherwise); but `Handler.Convert` bypasses the
pool entirely, spawning one goroutine per job instead of submitting it, so
conversions are not bounded by the worker count. -/
theorem pool_capacity_and_bypass (n : Nat) (m : Manager) (j : Job) :
    ((newManager n).queueCapacity = n * 2) ∧
    (m.queueCapacity ≤ m.queued.length → queueJob m j = none) ∧
    (∀ m2, queueJob m j = some m2 → m2.queued = m.queued ++ [j]) ∧
    (ConvertEffect.createJob ∈ handlerConvert true true true ∧
     ConvertEffect.spawnPerformConvert ∈ handlerConvert true true true ∧
     ConvertEffect.queueJobSubmit ∉ handlerConvert true true true) := by
  refine ⟨rfl, ?_, ?_, by decide⟩
  · intro h
    simp [queueJob, Nat.not_lt.mpr h]
  · intro m2 h
    unfold queueJob at h
    split at h
    · exact (Option.some.inj h) ▸ rfl
    · exact absurd h (by simp)

/-- C3 (witness): the amended theorem applied to a full and to an empty
one-worker manager. -/
theorem pool_capacity_and_bypass_witness :
    queueJob mFull job0 = none ∧ mAfter.queued = mFree.queued ++ [job0] :=
  ⟨(pool_capacity_and_bypass 1 mFull job0).2.1 (by decide),
   (pool_capacity_and_bypass 1 mFree job0).2.2.1 mAfter (by decide)⟩

/-- C4: evaluating the code's `cover` branch at aspect-preserving options
with box 1280×720 shows it emits a scale factor `min(1, min(w/iw, h/ih))` —
which never scales up and fits the frame inside the box — followed by `pad`
(letterboxing); no `crop` appears, contradicting both the claim and the
source's own `// Crop to fit` comment. -/
theorem buildScaleFilter_cover_eval :
    buildScaleFilter c4CoverOpts =
      "scale=iw*min(1\\,min(1280/iw\\,720/ih)):ih*min(1\\,min(1280/iw\\,720/ih)),pad=1280:720:(ow-iw)/2:(oh-ih)/2" := by
  rfl

/-- C5 (confirmed): the argument list is a pure function of the options (so
identical options give identical lists), dropping video reduces the whole
video section to the lone `-vn` flag — no codec, preset, CRF, video bitrate,
FPS or scale-filter argument is built — and the preset pair is never built
when the selected video codec is the pass-through `copy`. -/
theorem convert_args_gating (opts : ConvertOptions) :
    (∀ opts2, opts = opts2 → buildArgs opts = buildArgs opts2) ∧
    (opts.removeVideo = true →
        videoArgs opts = ["-vn"] ∧
        buildArgs opts =
          baseArgs opts ++ trimArgs opts ++ ["-vn"] ++ audioArgs opts ++
            metadataArgs opts ++ fastStartArgs opts ++
            ["-y", opts.outputPath]) ∧
    (opts.videoCodec = some "copy" → presetArgs opts = []) := by
  refine ⟨fun _ h => h ▸ rfl, ?_, ?_⟩
  · intro h
    have hv : videoArgs opts = ["-vn"] := by simp [videoArgs, h]
    exact ⟨hv, by rw [buildArgs, hv]⟩
  · intro h
    simp [presetArgs, h]

/-- C5 (witness): the gating theorem applied to concrete options that drop
video and name the `copy` codec. -/
theorem convert_args_gating_witness :
    buildArgs c5Opts = buildArgs c5Opts ∧
    videoArgs c5Opts = ["-vn"] ∧
    presetArgs c5Opts = [] :=
  ⟨(convert_args_gating c5Opts).1 c5Opts rfl,
   ((convert_args_gating c5Opts).2.1 rfl).1,
   (convert_args_gating c5Opts).2.2 rfl⟩

/-- C7 (counterexample): with no explicit preset and policy `low_cpu` the
code returns `veryfast`, which is neither the literal `fastest` the spec
names nor the fastest of the allowed presets (`ultrafast`). -/
theorem getPreset_low_cpu_cex :
    getPreset c7LowCpu = "veryfast" ∧
    getPreset c7LowCpu ≠ "fastest" ∧
    getPreset c7LowCpu ≠ "ultrafast" := by
  refine ⟨rfl, by decide, by decide⟩

/-- C7 (amended): when no explicit preset is given, the policy maps
`low_cpu → veryfast` (not the fastest preset), `balanced → fast`,
`quality → slow`, and any unknown policy to `fast`. -/
theorem getPreset_policy (opts : ConvertOptions) (h : opts.preset = none) :
    (opts.presetMode = "low_cpu" → getPreset opts = "veryfast") ∧
    (opts.presetMode = "balanced" → getPreset opts = "fast") ∧
    (opts.presetMode = "quality" → getPreset opts = "slow") ∧
    (opts.presetMode ∉ (["low_cpu", "balanced", "quality"] : List String) →
        getPreset opts = "fast") := by
  refine ⟨?_, ?_, ?_, ?_⟩ <;> intro hm <;> simp_all [getPreset]

/-- C7 (witness): the amended theorem applied at each policy. -/
theorem getPreset_policy_witness :
    getPreset c7LowCpu = "veryfast" ∧
    getPreset optsBase = "fast" ∧
    getPreset c7Quality = "slow" ∧
    getPreset c7Unknown = "fast" :=
  ⟨(getPreset_policy c7LowCpu rfl).1 rfl,
   (getPreset_policy optsBase rfl).2.1 rfl,
   (getPreset_policy c7Quality rfl).2.2.1 rfl,
   (getPreset_policy c7Unknown rfl).2.2.2 (by decide)⟩

/-- Folding the ring-buffer append over any message sequence, starting from a
buffer within capacity, retains exactly the most recent lines: the suffix of
the combined sequence that fits the capacity. -/
theorem foldl_ringAppend (M : Nat) (msgs : List String) :
    ∀ buf : List String, buf.length ≤ M →
      msgs.foldl (ringAppend M) buf
        = (buf ++ msgs).drop ((buf ++ msgs).length - M) := by
  induction msgs with
  | nil =>
    intro buf h
    simp [Nat.sub_eq_zero_of_le h]
  | cons m rest ih =>
    intro buf h
    simp only [List.foldl_cons]
    by_cases hb : M < (buf ++ [m]).length
    · have hra : ringAppend M buf m = (buf ++ [m]).drop 1 := by
        simp only [ringAppend]
        rw [if_pos hb]
      have hd : ((buf ++ [m]).drop 1).length ≤ M := by
        simp at hb ⊢
        omega
      rw [hra, ih _ hd]
      have hlen1 : (((buf ++ [m]).drop 1) ++ rest).length - M = rest.length := by
        simp at hb ⊢
        omega
      have hlen2 : (buf ++ m :: rest).length - M = rest.length + 1 := by
        simp at hb ⊢
        omega
      rw [hlen1, hlen2]
      have hsplit : ((buf ++ [m]).drop 1) ++ rest
          = ((buf ++ [m]) ++ rest).drop 1 := by
        cases buf <;> simp
      rw [hsplit, List.drop_drop]
      have happ : (buf ++ [m]) ++ rest = buf ++ m :: rest := by simp
      rw [happ]
      congr 1
      omega
    · have hra : ringAppend M buf m = buf ++ [m] := by
        simp only [ringAppend]
        rw [if_neg hb]
      rw [hra, ih _ (Nat.not_lt.mp hb)]
      have happ : (buf ++ [m]) ++ rest = buf ++ m :: rest := by simp
      rw [happ]

/-- C6 (confirmed): a job is created with an empty ring and capacity 200, and
for any capacity `M` and any sequence of appended lines the ring never holds
more than `M` lines and always equals the suffix of the most recent lines in
order — the oldest line is evicted first on overflow. -/
theorem addLog_ring_bound_fifo (M : Nat) (msgs : List String)
    (reg : Registry) (id fid name ofmt : String) (now : Nat) :
    ((createJob reg id fid name ofmt now).2.maxLogLines = 200) ∧
    ((createJob reg id fid name ofmt now).2.logRingBuffer = []) ∧
    ((msgs.foldl (ringAppend M) []).length ≤ M) ∧
    (msgs.foldl (ringAppend M) [] = msgs.drop (msgs.length - M)) := by
  have hfold := foldl_ringAppend M msgs [] (by simp)
  simp only [List.nil_append] at hfold
  refine ⟨rfl, rfl, ?_, hfold⟩
  rw [hfold]
  simp only [List.length_drop]
  omega

/-- C8 (counterexample): with a known total duration of 1 second, the line
`out_time_ms=2000` produces an event whose fraction is 2 — the code never
clamps the fraction into [0,1] (and the non-matching line is ignored). -/
theorem progress_fraction_unclamped_cex :
    progressEvents (some 1) ["frame=10", "out_time_ms=2000"]
        = [(2, 1, 2000)] ∧
    ¬ ((2 : ℚ) ≤ 1) := by
  have h1 : progressEvents (some 1) ["frame=10", "out_time_ms=2000"]
      = [(((2000 : Nat) : ℚ) / 1000 / 1, 1, ((2000 : Nat) : ℚ))] := rfl
  constructor
  · rw [h1]
    simp only [List.cons.injEq, Prod.mk.injEq]
    norm_num
  · norm_num

/-- C8 (amended): every event delivered to the sink is emitted only when a
total duration is known and strictly positive, and carries
`(elapsed-ms / 1000 / total-seconds, 1.0, elapsed-ms)`; but the fraction is
not clamped and need not lie in [0,1]. -/
theorem progress_event_form (total : Option ℚ) (lines : List String)
    (ev : ℚ × ℚ × ℚ) (h : ev ∈ progressEvents total lines) :
    ∃ t ms, total = some t ∧ 0 < t ∧ ev = (ms / 1000 / t, 1, ms) := by
  obtain ⟨line, hmem, hline⟩ := List.mem_filterMap.mp h
  unfold processProgressLine at hline
  cases total with
  | none =>
    split at hline
    · split at hline
      · exact absurd hline (by simp)
      · exact absurd hline (by simp)
    · exact absurd hline (by simp)
  | some t =>
    split at hline
    · split at hline
      · split at hline
        · split at hline
          · exact ⟨_, _, by assumption, by assumption,
              (Option.some.inj hline).symm⟩
          · exact absurd hline (by simp)
        · exact absurd hline (by simp)
      · exact absurd hline (by simp)
    · exact absurd hline (by simp)

/-- C8 (witness): the amended theorem applied to a concrete event emitted for
a 2-second input at elapsed time 1000. -/
theorem progress_event_form_witness :
    ∃ t ms, (some (2 : ℚ)) = some t ∧ 0 < t ∧
      ((1/2 : ℚ), (1 : ℚ), (1000 : ℚ)) = (ms / 1000 / t, 1, ms) :=
  progress_event_form (some 2) ["out_time_ms=1000"] (1/2, 1, 1000)
    (by
      have h : progressEvents (some 2) ["out_time_ms=1000"]
          = [(((1000 : Nat) : ℚ) / 1000 / 2, 1, ((1000 : Nat) : ℚ))] := rfl
      rw [h]
      refine List.mem_singleton.mpr ?_
      simp only [Prod.mk.injEq]
      norm_num)

/-- C9 (confirmed): `CreateJob` hard-codes the per-job log capacity to 200 —
for every environment (hence every loadable configuration, including any
`LOG_RING_BUFFER_SIZE` value, which `Load` stores but nothing consults) the
created job's `MaxLogLines` is exactly 200, both on the returned job and in
the registry. -/
theorem createJob_log_capacity_fixed (env : String → Option String)
    (reg : Registry) (id fid name ofmt : String) (now : Nat) :
    ((createJob reg id fid name ofmt now).2.maxLogLines = 200) ∧
    (((createJob reg id fid name ofmt now).1.lookup id).map Job.maxLogLines
        = some 200) ∧
    ((load env).logRingBufferSize
        = getEnvInt env "LOG_RING_BUFFER_SIZE" 200) := by
  refine ⟨rfl, ?_, rfl⟩
  simp [createJob, List.lookup]

/-- C10 (confirmed): `Validate` rejects a present CRF outside [18,35] and a
present FPS outside [1,60] (whatever the other fields hold, some check
fires), and accepts any request whose required fields are valid and whose
present optional fields all lie in their allowed sets and ranges. -/
theorem validate_optional_ranges (r : ConvertRequest) :
    (∀ c, r.crf = some c → (c < 18 ∨ 35 < c) → validate r ≠ none) ∧
    (∀ f, r.fps = some f → (f < 1 ∨ 60 < f) → validate r ≠ none) ∧
    ((r.fileID ≠ "" ∧ r.outputFormat ≠ "" ∧
      strToLower r.outputFormat ∈ allowedOutputFormats ∧
      (∀ c, r.videoCodec = some c → c ∈ allowedVideoCodecs) ∧
      (∀ c, r.audioCodec = some c → c ∈ allowedAudioCodecs) ∧
      (∀ c, r.crf = some c → 18 ≤ c ∧ c ≤ 35) ∧
      (∀ p, r.preset = some p → p ∈ allowedPresets) ∧
      (∀ f, r.fps = some f → 1 ≤ f ∧ f ≤ 60) ∧
      (∀ t, r.trimStart = some t → 0 ≤ t) ∧
      (∀ d, r.trimDuration = some d → 0 ≤ d) ∧
      (∀ w, r.resizeWidth = some w → 1 ≤ w) ∧
      (∀ hh, r.resizeHeight = some hh → 1 ≤ hh) ∧
      (∀ m, r.fitMode = some m → m ∈ allowedFitModes)) →
      validate r = none) := by
  refine ⟨?_, ?_, ?_⟩
  · intro c hc hbad hnone
    unfold validate at hnone
    by_cases g1 : r.fileID = ""
    · rw [if_pos g1] at hnone
      exact Option.noConfusion hnone
    rw [if_neg g1] at hnone
    by_cases g2 : r.outputFormat = ""
    · rw [if_pos g2] at hnone
      exact Option.noConfusion hnone
    rw [if_neg g2] at hnone
    by_cases g3 : (!decide (strToLower r.outputFormat ∈ allowedOutputFormats))
        = true
    · rw [if_pos g3] at hnone
      exact Option.noConfusion hnone
    rw [if_neg g3] at hnone
    by_cases g4 : (r.videoCodec.any fun c => !decide (c ∈ allowedVideoCodecs))
        = true
    · rw [if_pos g4] at hnone
      exact Option.noConfusion hnone
    rw [if_neg g4] at hnone
    by_cases g5 : (r.audioCodec.any fun c => !decide (c ∈ allowedAudioCodecs))
        = true
    · rw [if_pos g5] at hnone
      exact Option.noConfusion hnone
    rw [if_neg g5] at hnone
    have g6 : (r.crf.any fun c => decide (c < 18) || decide (35 < c))
        = true := by
      rw [hc]
      simp only [Option.any_some, Bool.or_eq_true, decide_eq_true_eq]
      exact hbad
    rw [if_pos g6] at hnone
    exact Option.noConfusion hnone
  · intro f hf hbad hnone
    unfold validate at hnone
    by_cases g1 : r.fileID = ""
    · rw [if_pos g1] at hnone
      exact Option.noConfusion hnone
    rw [if_neg g1] at hnone
    by_cases g2 : r.outputFormat = ""
    · rw [if_pos g2] at hnone
      exact Option.noConfusion hnone
    rw [if_neg g2] at hnone
    by_cases g3 : (!decide (strToLower r.outputFormat ∈ allowedOutputFormats))
        = true
    · rw [if_pos g3] at hnone
      exact Option.noConfusion hnone
    rw [if_neg g3] at hnone
    by_cases g4 : (r.videoCodec.any fun c => !decide (c ∈ allowedVideoCodecs))
        = true
    · rw [if_pos g4] at hnone
      exact Option.noConfusion hnone
    rw [if_neg g4] at hnone
    by_cases g5 : (r.audioCodec.any fun c => !decide (c ∈ allowedAudioCodecs))
        = true
    · rw [if_pos g5] at hnone
      exact Option.noConfusion hnone
    rw [if_neg g5] at hnone
    by_cases g6 : (r.crf.any fun c => decide (c < 18) || decide (35 < c))
        = true
    · rw [if_pos g6] at hnone
      exact Option.noConfusion hnone
    rw [if_neg g6] at hnone
    by_cases g7 : (r.preset.any fun p => !decide (p ∈ allowedPresets)) = true
    · rw [if_pos g7] at hnone
      exact Option.noConfusion hnone
    rw [if_neg g7] at hnone
    have g8 : (r.fps.any fun f => decide (f < 1) || decide (60 < f))
        = true := by
      rw [hf]
      simp only [Option.any_some, Bool.or_eq_true, decide_eq_true_eq]
      exact hbad
    rw [if_pos g8] at hnone
    exact Option.noConfusion hnone
  · rintro ⟨h1, h2, h3, h4, h5, h6, h7, h8, h9, h10, h11, h12, h13⟩
    have b4 : (r.videoCodec.any fun c => !decide (c ∈ allowedVideoCodecs))
        = false := by
      cases hv : r.videoCodec with
      | none => rfl
      | some c => simp [h4 c hv]
    have b5 : (r.audioCodec.any fun c => !decide (c ∈ allowedAudioCodecs))
        = false := by
      cases hv : r.audioCodec with
      | none => rfl
      | some c => simp [h5 c hv]
    have b6 : (r.crf.any fun c => decide (c < 18) || decide (35 < c))
        = false := by
      cases hv : r.crf with
      | none => rfl
      | some c =>
        have hr := h6 c hv
        simp only [Option.any_some, Bool.or_eq_false_iff,
          decide_eq_false_iff_not]
        omega
    have b7 : (r.preset.any fun p => !decide (p ∈ allowedPresets))
        = false := by
      cases hv : r.preset with
      | none => rfl
      | some p => simp [h7 p hv]
    have b8 : (r.fps.any fun f => decide (f < 1) || decide (60 < f))
        = false := by
      cases hv : r.fps with
      | none => rfl
      | some f =>
        have hr := h8 f hv
        simp only [Option.any_some, Bool.or_eq_false_iff,
          decide_eq_false_iff_not]
        omega
    have b9 : (r.trimStart.any fun t => decide (t < 0)) = false := by
      cases hv : r.trimStart with
      | none => rfl
      | some t =>
        simp only [Option.any_some, decide_eq_false_iff_not]
        exact not_lt.mpr (h9 t hv)
    have b10 : (r.trimDuration.any fun d => decide (d < 0)) = false := by
      cases hv : r.trimDuration with
      | none => rfl
      | some d =>
        simp only [Option.any_some, decide_eq_false_iff_not]
        exact not_lt.mpr (h10 d hv)
    have b11 : (r.resizeWidth.any fun w => decide (w < 1)) = false := by
      cases hv : r.resizeWidth with
      | none => rfl
      | some w =>
        have hr := h11 w hv
        simp only [Option.any_some, decide_eq_false_iff_not]
        omega
    have b12 : (r.resizeHeight.any fun hh => decide (hh < 1)) = false := by
      cases hv : r.resizeHeight with
      | none => rfl
      | some hh =>
        have hr := h12 hh hv
        simp only [Option.any_some, decide_eq_false_iff_not]
        omega
    have b13 : (r.fitMode.any fun m => !decide (m ∈ allowedFitModes))
        = false := by
      cases hv : r.fitMode with
      | none => rfl
      | some m => simp [h13 m hv]
    unfold validate
    rw [if_neg h1, if_neg h2, if_neg (by simp [h3]),
      if_neg (by simp [b4]), if_neg (by simp [b5]), if_neg (by simp [b6]),
      if_neg (by simp [b7]), if_neg (by simp [b8]), if_neg (by simp [b9]),
      if_neg (by simp [b10]), if_neg (by simp [b11]), if_neg (by simp [b12]),
      if_neg (by simp [b13])]

/-- C10 (witness): the theorem applied to a request with CRF 40 (rejected),
one with FPS 0 (rejected), and one whose present optional fields are all in
range (accepted). -/
theorem validate_optional_ranges_witness :
    validate c10BadCrf ≠ none ∧ validate c10BadFps ≠ none ∧
    validate c10Good = none :=
  ⟨(validate_optional_ranges c10BadCrf).1 40 rfl (by norm_num),
   (validate_optional_ranges c10BadFps).2.1 0 rfl (by norm_num),
   (validate_optional_ranges c10Good).2.2
     ⟨by decide, by decide, by decide,
      fun c hc => by simp [c10Good, c10BadCrf] at hc; subst hc; decide,
      fun c hc => by simp [c10Good, c10BadCrf] at hc,
      fun c hc => by simp [c10Good, c10BadCrf] at hc; omega,
      fun p hp => by simp [c10Good, c10BadCrf] at hp,
      fun f hf => by simp [c10Good, c10BadCrf] at hf; omega,
      fun t ht => by simp [c10Good, c10BadCrf] at ht,
      fun d hd => by simp [c10Good, c10BadCrf] at hd,
      fun w hw => by simp [c10Good, c10BadCrf] at hw,
      fun hh hhh => by simp [c10Good, c10BadCrf] at hhh,
      fun m hm => by simp [c10Good, c10BadCrf] at hm; subst hm; decide⟩⟩

end Ffmeditor
